import Mathlib

/-!
Verification of `mqtt_to_influxdb.py` (skagl/wbmqtt2influx): a bridge that
subscribes to an MQTT topic tree, extracts readings, and batch-writes them to
InfluxDB.  The Python source is shallowly embedded below: the queue is a
`List`, wall-clock time in `get_items` is a fuel counter of sleep steps
(popping an available item consumes no fuel, an idle sleep consumes one),
Python `float(str)` is modelled by an exact-rational parser over the same
grammar, and fallible operations return `Option`/`Except`.
-/

deriving instance DecidableEq for Except

namespace Wbmqtt2Influx

/-- Result of Python `float(str)`: a finite value (kept as an exact rational;
the real parser rounds to binary64, which never changes NaN-ness or parse
success/failure), a signed infinity (`true` = negative), or NaN. -/
inductive PyFloat where
  | finite : ℚ → PyFloat
  | infty : Bool → PyFloat
  | nan : PyFloat
deriving DecidableEq, Repr

/-- Model of `math.isnan` on a parsed value. -/
def PyFloat.isNaN : PyFloat → Bool
  | .nan => true
  | _ => false

/-- ASCII whitespace stripped by Python `float(str)` (the unicode-space and
unicode-digit transliteration CPython applies first is out of the ASCII
fragment modelled here; every value the program handles is ASCII-relevant). -/
def isPySpace (c : Char) : Prop :=
  c = ' ' ∨ c = '\t' ∨ c = '\n' ∨ c = '\r' ∨ c = '\x0b' ∨ c = '\x0c'

instance (c : Char) : Decidable (isPySpace c) := by
  unfold isPySpace; infer_instance

/-- Numeric value of an ASCII digit character. -/
def digitVal (c : Char) : Nat := c.toNat - 48

/-- Consume a maximal run of digits, allowing a single `_` strictly between
two digits (PEP 515, honoured by `float(str)`); an `_` not followed by a
digit is left unconsumed (it then makes the whole parse fail because the
top level requires the full string to be consumed). -/
def takeDigits (acc : List Nat) : List Char → List Nat × List Char
  | c :: cs =>
    if c.isDigit then takeDigits (acc ++ [digitVal c]) cs
    else if c = '_' then
      match cs with
      | d :: cs2 =>
        if d.isDigit then takeDigits (acc ++ [digitVal d]) cs2
        else (acc, c :: cs)
      | [] => (acc, c :: cs)
    else (acc, c :: cs)
  | [] => (acc, [])

/-- Parse a digit-part: at least one digit, underscores between digits. -/
def parseDigitPart (cs : List Char) : Option (List Nat × List Char) :=
  match cs with
  | c :: rest => if c.isDigit then some (takeDigits [digitVal c] rest) else none
  | [] => none

/-- Natural value of a digit list, most significant first. -/
def digitsToNat (ds : List Nat) : Nat := ds.foldl (fun a d => 10 * a + d) 0

/-- Parse an unsigned decimal literal `digitpart [. [digitpart]] [exponent]`
or `. digitpart [exponent]`, returning its exact value and the unconsumed
suffix.  No digits at all (also the lone `"."`) fails. -/
def parseDecimal (cs : List Char) : Option (ℚ × List Char) :=
  let ip : Option (List Nat) × List Char :=
    match parseDigitPart cs with
    | some (ds, r) => (some ds, r)
    | none => (none, cs)
  let fp : Option (List Nat) × List Char :=
    match ip.2 with
    | '.' :: r =>
      match parseDigitPart r with
      | some (ds, r2) => (some ds, r2)
      | none => (some [], r)
    | _ => (none, ip.2)
  let ex : Int × List Char :=
    match fp.2 with
    | e :: r =>
      if e = 'e' ∨ e = 'E' then
        match r with
        | s :: r2 =>
          if s = '+' ∨ s = '-' then
            match parseDigitPart r2 with
            | some (ds, r3) =>
              (if s = '-' then -(digitsToNat ds : Int) else (digitsToNat ds : Int), r3)
            | none => (0, fp.2)
          else
            match parseDigitPart r with
            | some (ds, r3) => ((digitsToNat ds : Int), r3)
            | none => (0, fp.2)
        | [] => (0, fp.2)
      else (0, fp.2)
    | [] => (0, fp.2)
  let ids := ip.1.getD []
  let fds := fp.1.getD []
  if ids ++ fds = [] then none
  else
    let mant : ℚ := (digitsToNat ids : ℚ) + (digitsToNat fds : ℚ) / ((10 : ℚ) ^ fds.length)
    some (mant * (10 : ℚ) ^ ex.1, ex.2)

/-- Strip leading and trailing whitespace. -/
def stripPySpace (cs : List Char) : List Char :=
  ((cs.dropWhile (fun c => decide (isPySpace c))).reverse.dropWhile
    (fun c => decide (isPySpace c))).reverse

/-- Python `float(str)`: strip whitespace, optional sign, then either a
case-insensitive `inf`/`infinity`/`nan` or a decimal literal consuming the
whole remainder; anything else raises `ValueError`, modelled as `none`. -/
def pyFloat? (s : String) : Option PyFloat :=
  let cs := stripPySpace s.toList
  let signed : Bool × List Char :=
    match cs with
    | '+' :: r => (false, r)
    | '-' :: r => (true, r)
    | _ => (false, cs)
  let low := signed.2.map Char.toLower
  if low = ['i', 'n', 'f'] ∨ low = ['i', 'n', 'f', 'i', 'n', 'i', 't', 'y'] then
    some (.infty signed.1)
  else if low = ['n', 'a', 'n'] then some .nan
  else
    match parseDecimal signed.2 with
    | some (q, []) => some (.finite (if signed.1 then -q else q))
    | _ => none

/-- Classifier used to state the spec's "parses as a finite float": the parse
succeeded and produced a finite value (neither an infinity nor NaN). -/
def isFiniteFloat : Option PyFloat → Bool
  | some (.finite _) => true
  | _ => false

/-! ## Serializer (`DBWriterThread.serialize_data_item`) -/

/-- The `fields` dict of a record: the code puts in at most one of the two
keys (`value_f`, then `value_s` only when `value_f` is absent). -/
structure Fields where
  value_f : Option PyFloat
  value_s : Option String
deriving DecidableEq, Repr

/-- The `tags` dict of a record. -/
structure Tags where
  device_id : String
  control_id : String
deriving DecidableEq, Repr

/-- One InfluxDB point as built by `serialize_data_item`. -/
structure StorageRecord where
  measurement : String
  tags : Tags
  fields : Fields
deriving DecidableEq, Repr

/-- Newline normalization, `value.replace('\n', ' ')`: replace every newline
character by a space. -/
def normalizeValue (s : String) : String :=
  String.mk (s.toList.map fun c => if c = '\n' then ' ' else c)

/-- Model of `DBWriterThread.serialize_data_item`: normalize newlines, drop empty
values, try `float(value)` keeping the result only when not NaN, fall back
to the string field, and attach the fixed measurement plus both tags.
The `client` handle is taken but never used in the record, as in the code. -/
def serialize_data_item (client : Nat) (device_id control_id value : String) :
    Option StorageRecord :=
  let value := normalizeValue value
  if value = "" then none
  else
    let value_f : Option PyFloat :=
      match pyFloat? value with
      | some v => if v.isNaN then none else some v
      | none => none
    let fields : Fields :=
      { value_f := value_f
        value_s := if value_f = none then some value else none }
    some { measurement := "mqtt_data"
           tags := { device_id := device_id, control_id := control_id }
           fields := fields }

/-! ## Ingress handler (`on_mqtt_message`) -/

/-- One queued reading: the tuple `(client, device_id, control_id, value)`
built by `on_mqtt_message` and handed to `schedule_item`.  The opaque MQTT
client handle is an abstract identifier. -/
structure Item where
  client : Nat
  device_id : String
  control_id : String
  value : String
deriving DecidableEq, Repr

/-- An inbound MQTT message as the paho callback sees it: topic string,
payload bytes, retained flag. -/
structure MqttMessage where
  topic : String
  payload : List Nat
  retain : Bool
deriving DecidableEq, Repr

/-- A byte is a UTF-8 continuation byte. -/
def isCont (b : Nat) : Prop := 0x80 ≤ b ∧ b ≤ 0xBF

instance (b : Nat) : Decidable (isCont b) := by
  unfold isCont; infer_instance

/-- Strict UTF-8 decoding as Python `bytes.decode('utf8')`: rejects overlong
forms, surrogates and code points above U+10FFFF; `none` models
`UnicodeDecodeError`. -/
def utf8Decode? : List Nat → Option (List Char)
  | [] => some []
  | b0 :: rest =>
    if b0 ≤ 0x7F then
      (utf8Decode? rest).map (Char.ofNat b0 :: ·)
    else if 0xC2 ≤ b0 ∧ b0 ≤ 0xDF then
      match rest with
      | b1 :: rest2 =>
        if isCont b1 then
          (utf8Decode? rest2).map (Char.ofNat ((b0 - 0xC0) * 64 + (b1 - 0x80)) :: ·)
        else none
      | [] => none
    else if 0xE0 ≤ b0 ∧ b0 ≤ 0xEF then
      match rest with
      | b1 :: b2 :: rest2 =>
        if (if b0 = 0xE0 then 0xA0 ≤ b1 ∧ b1 ≤ 0xBF
            else if b0 = 0xED then 0x80 ≤ b1 ∧ b1 ≤ 0x9F
            else isCont b1) ∧ isCont b2 then
          (utf8Decode? rest2).map
            (Char.ofNat ((b0 - 0xE0) * 4096 + (b1 - 0x80) * 64 + (b2 - 0x80)) :: ·)
        else none
      | _ => none
    else if 0xF0 ≤ b0 ∧ b0 ≤ 0xF4 then
      match rest with
      | b1 :: b2 :: b3 :: rest2 =>
        if (if b0 = 0xF0 then 0x90 ≤ b1 ∧ b1 ≤ 0xBF
            else if b0 = 0xF4 then 0x80 ≤ b1 ∧ b1 ≤ 0x8F
            else isCont b1) ∧ isCont b2 ∧ isCont b3 then
          (utf8Decode? rest2).map
            (Char.ofNat ((b0 - 0xF0) * 262144 + (b1 - 0x80) * 4096 +
              (b2 - 0x80) * 64 + (b3 - 0x80)) :: ·)
        else none
      | _ => none
    else none

/-- Python `str.split(sep)` for a one-character separator, over the character
list: split at every occurrence of `sep`, keeping empty segments, with
`[""]` for the empty string — the semantics of `msg.topic.split('/')`. -/
def splitChar (sep : Char) : List Char → List (List Char)
  | [] => [[]]
  | c :: cs =>
    if c = sep then [] :: splitChar sep cs
    else
      match splitChar sep cs with
      | seg :: rest => (c :: seg) :: rest
      | [] => [[c]]

/-- Topic splitting `msg.topic.split('/')` as a list of strings. -/
def pySplit (sep : Char) (s : String) : List String :=
  (splitChar sep s.toList).map String.mk

/-- The exception raised by a failing `payload.decode('utf8')`. -/
inductive IngressError where
  | unicodeDecodeError : IngressError
deriving DecidableEq, Repr

/-- Model of `on_mqtt_message`: drop retained messages, drop topics that do not split
into exactly 5 segments, decode the payload (a decode failure propagates out
of the handler), and otherwise build the Item that `schedule_item` appends —
`ok none` models "returned without enqueuing". -/
def on_mqtt_message (client : Nat) (msg : MqttMessage) :
    Except IngressError (Option Item) :=
  if msg.retain then .ok none
  else
    let parts := pySplit '/' msg.topic
    if parts.length ≠ 5 then .ok none
    else
      let device_id := parts.getD 2 ""
      let control_id := parts.getD 4 ""
      match utf8Decode? msg.payload with
      | none => .error .unicodeDecodeError
      | some chars => .ok (some ⟨client, device_id, control_id, String.mk chars⟩)

/-! ## Queue (`schedule_item` / `get_items`)

The deque is a `List` with its head at the left.  In `get_items`, wall-clock
time is a fuel counter: popping an available item costs nothing (negligible
time next to the 50 ms budget) while the `time.sleep(mininterval * 0.1)`
taken on an empty deque consumes one unit, so `fuel` is the number of idle
sleeps the `mininterval` deadline allows (10 for the real parameters). -/

/-- Model of `DBWriterThread.schedule_item`: append to the tail of the deque. -/
def schedule_item (queue : List α) (item : α) : List α := queue ++ [item]

/-- The `while` loop of `get_items`: stop when time is up or `maxitems` are
collected; otherwise pop the head, or sleep (one fuel unit) if empty.
Returns the collected items and the remaining deque. -/
def get_items_go (maxitems : Nat) : Nat → List α → List α → List α × List α
  | 0, queue, acc => (acc, queue)
  | fuel + 1, queue, acc =>
    if maxitems ≤ acc.length then (acc, queue)
    else
      match queue with
      | [] => get_items_go maxitems fuel [] acc
      | x :: rest => get_items_go maxitems (fuel + 1) rest (acc ++ [x])
termination_by fuel queue acc => fuel + (maxitems - acc.length)
decreasing_by all_goals (simp_wf; try omega)

/-- Model of `DBWriterThread.get_items`: run the collection loop on the current deque
with an empty accumulator. -/
def get_items (fuel : Nat) (queue : List α) (maxitems : Nat) :
    List α × List α :=
  get_items_go maxitems fuel queue []

/-! ## Batch writer loop body and liveness monitor -/

/-- One cycle of `DBWriterThread.run` after `get_items`: serialize the
drained items, drop the `none`s, and call `influx_client.write_points` only
when the batch is non-empty; the write call is an oracle whose exception
(`Except.error`) propagates out of the cycle, killing the thread. -/
def run_cycle (write_points : List StorageRecord → Except ε Unit)
    (items : List Item) : Except ε (List StorageRecord) :=
  let db_req_body := items.filterMap fun it =>
    serialize_data_item it.client it.device_id it.control_id it.value
  if db_req_body = [] then .ok []
  else
    match write_points db_req_body with
    | .ok _ => .ok db_req_body
    | .error e => .error e

/-- One iteration of the `while 1` supervision loop in `__main__`: returns
`some 1` when the process calls `exit(1)` (writer thread dead, or
`client.loop()` returned a non-zero rc) and `none` when it keeps looping. -/
def liveness_step (writer_alive : Bool) (rc : Int) : Option Nat :=
  if !writer_alive then some 1
  else if rc ≠ 0 then some 1
  else none

/-! ## Queue lemmas -/

/-- On an empty deque the collection loop only sleeps until its time budget
runs out and returns the accumulator unchanged. -/
lemma get_items_go_nil (maxitems : Nat) :
    ∀ (fuel : Nat) (acc : List α),
      get_items_go maxitems fuel ([] : List α) acc = (acc, []) := by
  intro fuel
  induction fuel with
  | zero => intro acc; rw [get_items_go]
  | succ f ih =>
    intro acc
    rw [get_items_go]
    split
    · rfl
    · exact ih acc

/-- With a positive time budget the collection loop takes exactly the items
that fit under `maxitems` from the head of the deque, in order. -/
lemma get_items_go_eq (maxitems : Nat) :
    ∀ (queue acc : List α) (fuel : Nat), 1 ≤ fuel →
      get_items_go maxitems fuel queue acc =
        (acc ++ queue.take (maxitems - acc.length),
          queue.drop (maxitems - acc.length)) := by
  intro queue
  induction queue with
  | nil => intro acc fuel _; simp [get_items_go_nil]
  | cons x rest ih =>
    intro acc fuel hf
    obtain ⟨f, rfl⟩ : ∃ f, fuel = f + 1 := ⟨fuel - 1, by omega⟩
    rw [get_items_go]
    split
    · next h =>
      simp [Nat.sub_eq_zero_of_le h]
    · next h =>
      rw [ih (acc ++ [x]) (f + 1) (by omega)]
      have hk : maxitems - acc.length = (maxitems - (acc.length + 1)) + 1 := by
        omega
      simp [hk, List.take_succ_cons, List.drop_succ_cons, List.append_assoc]

/-- With a positive time budget `get_items` returns the first `maxitems`
queued items and leaves the rest. -/
lemma get_items_eq (fuel : Nat) (queue : List α) (maxitems : Nat)
    (hf : 1 ≤ fuel) :
    get_items fuel queue maxitems = (queue.take maxitems, queue.drop maxitems) := by
  unfold get_items
  rw [get_items_go_eq maxitems queue [] fuel hf]
  simp

/-- Enqueuing a list of items one by one with `schedule_item` appends them in
order at the tail. -/
lemma foldl_schedule_item (xs : List α) :
    ∀ init : List α, xs.foldl schedule_item init = init ++ xs := by
  induction xs with
  | nil => intro init; simp
  | cons x xs ih =>
    intro init
    simp only [List.foldl_cons, schedule_item, ih, List.append_assoc,
      List.singleton_append]

/-- C1: items enqueued via `schedule_item` and then drained by `get_items`
come back as a prefix of the enqueue (FIFO) order, at most `maxitems` of
them, and when at least `maxitems` items are already enqueued at the start
of the call the result is exactly the first `maxitems` items in enqueue
order.  The hypothesis `1 ≤ fuel` says the call starts before its deadline
(true in the code, where `mininterval = 0.05 > 0`). -/
theorem get_items_fifo_batch {α : Type} (xs : List α) (fuel maxitems : Nat)
    (hf : 1 ≤ fuel) :
    (get_items fuel (List.foldl schedule_item [] xs) maxitems).1 <+: xs ∧
    (get_items fuel (List.foldl schedule_item [] xs) maxitems).1.length ≤ maxitems ∧
    (maxitems ≤ xs.length →
      (get_items fuel (List.foldl schedule_item [] xs) maxitems).1 =
        xs.take maxitems ∧
      (get_items fuel (List.foldl schedule_item [] xs) maxitems).1.length =
        maxitems) := by
  rw [foldl_schedule_item xs [], List.nil_append, get_items_eq _ _ _ hf]
  refine ⟨⟨xs.drop maxitems, List.take_append_drop _ _⟩, ?_, ?_⟩
  · simp [List.length_take]
  · intro h
    refine ⟨rfl, ?_⟩
    simp [List.length_take]
    omega

/-- C1 witness: three items enqueued, drained with `maxitems = 2` and one
time unit, return the first two in order. -/
theorem get_items_fifo_batch_witness :
    (1 ≤ 1 ∧ 2 ≤ [10, 20, 30].length) ∧
    ((get_items 1 (List.foldl schedule_item [] [10, 20, 30]) 2).1 <+: [10, 20, 30] ∧
      (get_items 1 (List.foldl schedule_item [] [10, 20, 30]) 2).1.length ≤ 2 ∧
      ((get_items 1 (List.foldl schedule_item [] [10, 20, 30]) 2).1 =
          [10, 20, 30].take 2 ∧
        (get_items 1 (List.foldl schedule_item [] [10, 20, 30]) 2).1.length = 2)) := by
  refine ⟨⟨by decide, by decide⟩, ?_⟩
  have h := get_items_fifo_batch [10, 20, 30] 1 2 (by decide)
  exact ⟨h.1, h.2.1, h.2.2 (by decide)⟩

/-! ## Serializer lemmas -/

/-- When the normalized value parses as a non-NaN float the record carries it
in `value_f` and has no `value_s`. -/
lemma serialize_eq_float (client : Nat) (device_id control_id value : String)
    (v : PyFloat) (h : normalizeValue value ≠ "")
    (hv : pyFloat? (normalizeValue value) = some v) (hn : v.isNaN = false) :
    serialize_data_item client device_id control_id value =
      some ⟨"mqtt_data", ⟨device_id, control_id⟩, ⟨some v, none⟩⟩ := by
  unfold serialize_data_item
  simp [h, hv, hn]

/-- When the normalized value does not parse, or parses as NaN, the record
carries the normalized string in `value_s` and has no `value_f`. -/
lemma serialize_eq_string (client : Nat) (device_id control_id value : String)
    (h : normalizeValue value ≠ "")
    (hp : pyFloat? (normalizeValue value) = none ∨
      pyFloat? (normalizeValue value) = some .nan) :
    serialize_data_item client device_id control_id value =
      some ⟨"mqtt_data", ⟨device_id, control_id⟩,
        ⟨none, some (normalizeValue value)⟩⟩ := by
  unfold serialize_data_item
  rcases hp with hp | hp <;> simp [h, hp, PyFloat.isNaN]

/-- C2: on a non-empty normalized value, a successful non-NaN float parse
puts the parsed number in `fields.value_f` with no `value_s`; in every other
case the normalized string goes as-is into `fields.value_s` with no
`value_f`. -/
theorem serialize_data_item_typing (client : Nat)
    (device_id control_id value : String) (h : normalizeValue value ≠ "") :
    (∀ v : PyFloat, pyFloat? (normalizeValue value) = some v → v.isNaN = false →
      serialize_data_item client device_id control_id value =
        some ⟨"mqtt_data", ⟨device_id, control_id⟩, ⟨some v, none⟩⟩) ∧
    ((pyFloat? (normalizeValue value) = none ∨
        pyFloat? (normalizeValue value) = some .nan) →
      serialize_data_item client device_id control_id value =
        some ⟨"mqtt_data", ⟨device_id, control_id⟩,
          ⟨none, some (normalizeValue value)⟩⟩) :=
  ⟨fun v hv hn => serialize_eq_float client device_id control_id value v h hv hn,
    fun hp => serialize_eq_string client device_id control_id value h hp⟩

/-- C2 witness: the non-numeric value `"ON"` ends up in `value_s`. -/
theorem serialize_data_item_typing_witness :
    (normalizeValue "ON" ≠ "" ∧ pyFloat? (normalizeValue "ON") = none) ∧
    serialize_data_item 0 "wb-w1" "temperature" "ON" =
      some ⟨"mqtt_data", ⟨"wb-w1", "temperature"⟩,
        ⟨none, some (normalizeValue "ON")⟩⟩ :=
  ⟨⟨by decide, by decide⟩,
    (serialize_data_item_typing 0 "wb-w1" "temperature" "ON" (by decide)).2
      (Or.inl (by decide))⟩

/-- C3 counterexample: `"inf"` does not parse as a *finite* float, yet the
code stores it in `value_f` (as the IEEE infinity) and leaves `value_s`
empty, contradicting the claim that every non-finite-parsing value lands in
`value_s`. -/
theorem serialize_data_item_inf_counterexample :
    isFiniteFloat (pyFloat? (normalizeValue "inf")) = false ∧
    serialize_data_item 0 "d" "c" "inf" =
      some ⟨"mqtt_data", ⟨"d", "c"⟩, ⟨some (.infty false), none⟩⟩ := by
  constructor
  · decide
  · decide

/-- C3 amended: a non-empty normalized value that does not parse as a float
at all, or parses as NaN, yields `value_s` equal to the normalized value and
no `value_f` (values parsing as infinities count as numeric and go to
`value_f`). -/
theorem serialize_data_item_string_fallback (client : Nat)
    (device_id control_id value : String) (h : normalizeValue value ≠ "")
    (hp : pyFloat? (normalizeValue value) = none ∨
      pyFloat? (normalizeValue value) = some .nan) :
    serialize_data_item client device_id control_id value =
      some ⟨"mqtt_data", ⟨device_id, control_id⟩,
        ⟨none, some (normalizeValue value)⟩⟩ :=
  serialize_eq_string client device_id control_id value h hp

/-- C3 amended witness: the decimal-comma value `"3,5"` is stored as a
string. -/
theorem serialize_data_item_string_fallback_witness :
    (normalizeValue "3,5" ≠ "" ∧ pyFloat? (normalizeValue "3,5") = none) ∧
    serialize_data_item 0 "d" "c" "3,5" =
      some ⟨"mqtt_data", ⟨"d", "c"⟩, ⟨none, some (normalizeValue "3,5")⟩⟩ :=
  ⟨⟨by decide, by decide⟩,
    serialize_data_item_string_fallback 0 "d" "c" "3,5" (by decide)
      (Or.inl (by decide))⟩

/-- C8: an item whose value is empty after newline normalization produces no
record at all (and, the function being total, raises nothing). -/
theorem serialize_data_item_empty (client : Nat)
    (device_id control_id value : String) (h : normalizeValue value = "") :
    serialize_data_item client device_id control_id value = none := by
  unfold serialize_data_item
  simp [h]

/-- C8 witness: the empty value is dropped. -/
theorem serialize_data_item_empty_witness :
    normalizeValue "" = "" ∧ serialize_data_item 0 "d" "c" "" = none :=
  ⟨by decide, serialize_data_item_empty 0 "d" "c" "" (by decide)⟩

/-- C7: every record the serializer produces has exactly one of `value_f`
and `value_s` set, tags exactly the item's device and control ids, and the
fixed measurement name. -/
theorem serialize_data_item_record_shape (client : Nat)
    (device_id control_id value : String) (record : StorageRecord)
    (h : serialize_data_item client device_id control_id value = some record) :
    (record.fields.value_f.isSome = true ∧ record.fields.value_s = none ∨
      record.fields.value_f = none ∧ record.fields.value_s.isSome = true) ∧
    record.tags = ⟨device_id, control_id⟩ ∧
    record.measurement = "mqtt_data" := by
  unfold serialize_data_item at h
  by_cases he : normalizeValue value = ""
  · simp [he] at h
  · simp only [he, if_false, Option.some.injEq] at h
    subst h
    cases hv : pyFloat? (normalizeValue value) with
    | none => simp [hv]
    | some v =>
      by_cases hn : v.isNaN
      · simp [hv, hn]
      · simp [hv, hn]

/-- C7 witness: the record for value `"ON"` has only `value_s`, the item's
tags, and measurement `mqtt_data`. -/
theorem serialize_data_item_record_shape_witness :
    serialize_data_item 0 "dev" "ctl" "ON" =
      some ⟨"mqtt_data", ⟨"dev", "ctl"⟩, ⟨none, some "ON"⟩⟩ ∧
    ((Option.isSome (none : Option PyFloat) = true ∧
        (some "ON" : Option String) = none ∨
      (none : Option PyFloat) = none ∧ Option.isSome (some "ON") = true) ∧
      (⟨"dev", "ctl"⟩ : Tags) = ⟨"dev", "ctl"⟩ ∧
      "mqtt_data" = "mqtt_data") :=
  ⟨by decide,
    serialize_data_item_record_shape 0 "dev" "ctl" "ON"
      ⟨"mqtt_data", ⟨"dev", "ctl"⟩, ⟨none, some "ON"⟩⟩ (by decide)⟩

/-! ## Ingress lemmas -/

/-- A non-retained message with a 5-segment topic and a decodable payload is
accepted: the enqueued item takes segments 2 and 4 of the topic and the
decoded payload. -/
lemma on_mqtt_message_accept (client : Nat) (msg : MqttMessage)
    (chars : List Char) (h1 : msg.retain = false)
    (h2 : (pySplit '/' msg.topic).length = 5)
    (h3 : utf8Decode? msg.payload = some chars) :
    on_mqtt_message client msg =
      .ok (some ⟨client, (pySplit '/' msg.topic).getD 2 "",
        (pySplit '/' msg.topic).getD 4 "", String.mk chars⟩) := by
  unfold on_mqtt_message
  simp [h1, h2, h3]

/-- An item is only ever produced with the topic's segments 2 and 4 as its
ids. -/
lemma on_mqtt_message_some_inv {client : Nat} {msg : MqttMessage} {item : Item}
    (h : on_mqtt_message client msg = .ok (some item)) :
    item.device_id = (pySplit '/' msg.topic).getD 2 "" ∧
    item.control_id = (pySplit '/' msg.topic).getD 4 "" := by
  unfold on_mqtt_message at h
  by_cases hr : msg.retain
  · simp [hr] at h
  · by_cases hl : (pySplit '/' msg.topic).length = 5
    · cases hd : utf8Decode? msg.payload with
      | none => simp [hr, hl, hd] at h
      | some chars =>
        simp [hr, hl, hd] at h
        subst h
        constructor <;> simp [List.getD_eq_getElem, hl]
    · simp [hr, hl] at h

/-- C4 counterexample: the topic `"////"` has exactly 5 (all empty) segments,
so the handler enqueues an item whose `device_id` and `control_id` are both
the empty string. -/
theorem on_mqtt_message_empty_ids_counterexample :
    on_mqtt_message 0 ⟨"////", [49], false⟩ =
      .ok (some ⟨0, "", "", "1"⟩) ∧
    ("" : String).length = 0 := by
  constructor
  · decide
  · decide

/-- C4 amended: every item the handler produces carries exactly segments 2
and 4 of the topic as `device_id` and `control_id`; they are non-empty
whenever those segments are non-empty, but the handler performs no emptiness
check, so they are empty when the segments are. -/
theorem on_mqtt_message_ids_from_topic (client : Nat) (msg : MqttMessage)
    (item : Item) (h : on_mqtt_message client msg = .ok (some item)) :
    item.device_id = (pySplit '/' msg.topic).getD 2 "" ∧
    item.control_id = (pySplit '/' msg.topic).getD 4 "" ∧
    ((pySplit '/' msg.topic).getD 2 "" ≠ "" → item.device_id ≠ "") ∧
    ((pySplit '/' msg.topic).getD 4 "" ≠ "" → item.control_id ≠ "") := by
  obtain ⟨h2, h4⟩ := on_mqtt_message_some_inv h
  exact ⟨h2, h4, fun hne => h2 ▸ hne, fun hne => h4 ▸ hne⟩

/-- C4 amended witness: a well-formed topic yields its device and control
segments. -/
theorem on_mqtt_message_ids_from_topic_witness :
    on_mqtt_message 3 ⟨"x/y/dev42/z/ctrl7", [49], false⟩ =
      .ok (some ⟨3, "dev42", "ctrl7", "1"⟩) ∧
    (("dev42" : String) = (pySplit '/' "x/y/dev42/z/ctrl7").getD 2 "" ∧
      ("ctrl7" : String) = (pySplit '/' "x/y/dev42/z/ctrl7").getD 4 "" ∧
      ((pySplit '/' "x/y/dev42/z/ctrl7").getD 2 "" ≠ "" →
        ("dev42" : String) ≠ "") ∧
      ((pySplit '/' "x/y/dev42/z/ctrl7").getD 4 "" ≠ "" →
        ("ctrl7" : String) ≠ "")) :=
  ⟨by decide,
    on_mqtt_message_ids_from_topic 3 ⟨"x/y/dev42/z/ctrl7", [49], false⟩
      ⟨3, "dev42", "ctrl7", "1"⟩ (by decide)⟩

/-- C5: a retained message is discarded without an item and without an
error, whatever its topic and payload (even an undecodable one). -/
theorem on_mqtt_message_retained (client : Nat) (msg : MqttMessage)
    (h : msg.retain = true) :
    on_mqtt_message client msg = .ok none := by
  unfold on_mqtt_message
  simp [h]

/-- C5 witness: a retained message with a non-UTF-8 payload is silently
dropped. -/
theorem on_mqtt_message_retained_witness :
    (utf8Decode? [255] = none ∧ (true : Bool) = true) ∧
    on_mqtt_message 0 ⟨"a/b/c/d/e", [255], true⟩ = .ok none :=
  ⟨⟨by decide, rfl⟩,
    on_mqtt_message_retained 0 ⟨"a/b/c/d/e", [255], true⟩ (by decide)⟩

/-- C6: on a non-retained message, a topic that does not split into exactly
5 segments is discarded silently, and a 5-segment topic (with a decodable
payload) yields the item with `device_id` from segment 2 and `control_id`
from segment 4. -/
theorem on_mqtt_message_topic_filter (client : Nat) (msg : MqttMessage)
    (h : msg.retain = false) :
    ((pySplit '/' msg.topic).length ≠ 5 →
      on_mqtt_message client msg = .ok none) ∧
    ((pySplit '/' msg.topic).length = 5 →
      ∀ chars : List Char, utf8Decode? msg.payload = some chars →
        on_mqtt_message client msg =
          .ok (some ⟨client, (pySplit '/' msg.topic).getD 2 "",
            (pySplit '/' msg.topic).getD 4 "", String.mk chars⟩)) := by
  constructor
  · intro hl
    unfold on_mqtt_message
    simp [h, hl]
  · intro hl chars hd
    exact on_mqtt_message_accept client msg chars h hl hd

/-- C6 witness: a 4-segment topic is dropped; shown via the first branch at
a concrete message. -/
theorem on_mqtt_message_topic_filter_witness :
    ((false : Bool) = false ∧ (pySplit '/' "a/b/c/d").length ≠ 5) ∧
    on_mqtt_message 0 ⟨"a/b/c/d", [49], false⟩ = .ok none :=
  ⟨⟨rfl, by decide⟩,
    (on_mqtt_message_topic_filter 0 ⟨"a/b/c/d", [49], false⟩ rfl).1 (by decide)⟩

/-- C9: a non-retained message whose 5-segment topic passes the filter but
whose payload is not valid UTF-8 makes the handler raise (the decode error
propagates); no item is produced and the message is not silently dropped. -/
theorem on_mqtt_message_decode_error (client : Nat) (msg : MqttMessage)
    (h1 : msg.retain = false) (h2 : (pySplit '/' msg.topic).length = 5)
    (h3 : utf8Decode? msg.payload = none) :
    on_mqtt_message client msg = .error .unicodeDecodeError := by
  unfold on_mqtt_message
  simp [h1, h2, h3]

/-- C9 witness: the lone byte 0xFF is not UTF-8 and makes the handler
raise. -/
theorem on_mqtt_message_decode_error_witness :
    ((false : Bool) = false ∧ (pySplit '/' "a/b/c/d/e").length = 5 ∧
      utf8Decode? [255] = none) ∧
    on_mqtt_message 0 ⟨"a/b/c/d/e", [255], false⟩ =
      .error .unicodeDecodeError :=
  ⟨⟨rfl, by decide, by decide⟩,
    on_mqtt_message_decode_error 0 ⟨"a/b/c/d/e", [255], false⟩ rfl
      (by decide) (by decide)⟩

/-! ## Batch writer failure and liveness -/

/-- C10: a failing `write_points` call on a non-empty batch makes the cycle
end in that error (no retry, the writer thread's `run` loop dies on the
uncaught exception), and the supervision loop exits with code 1 whenever it
sees the writer thread dead, or a non-zero return status from
`client.loop()`. -/
theorem write_failure_kills_writer_and_process {ε : Type}
    (write_points : List StorageRecord → Except ε Unit)
    (items : List Item) (e : ε)
    (hw : write_points (items.filterMap fun it =>
      serialize_data_item it.client it.device_id it.control_id it.value) =
        .error e)
    (hne : (items.filterMap fun it =>
      serialize_data_item it.client it.device_id it.control_id it.value) ≠ []) :
    run_cycle write_points items = .error e ∧
    (∀ rc : Int, liveness_step false rc = some 1) ∧
    (∀ (alive : Bool) (rc : Int), rc ≠ 0 → liveness_step alive rc = some 1) := by
  refine ⟨?_, ?_, ?_⟩
  · unfold run_cycle
    simp [hne, hw]
  · intro rc
    rfl
  · intro alive rc hrc
    unfold liveness_step
    cases alive <;> simp [hrc]

/-- C10 witness: a one-item batch whose write fails ends the cycle in the
error, and both liveness conditions exit with code 1. -/
theorem write_failure_kills_writer_and_process_witness :
    (((fun _ : List StorageRecord => (Except.error 1 : Except Nat Unit))
        (([⟨0, "d", "c", "x"⟩] : List Item).filterMap fun it =>
          serialize_data_item it.client it.device_id it.control_id it.value) =
        Except.error 1) ∧
      ([⟨0, "d", "c", "x"⟩] : List Item).filterMap (fun it =>
        serialize_data_item it.client it.device_id it.control_id it.value) ≠ []) ∧
    (run_cycle (fun _ => (Except.error 1 : Except Nat Unit))
        [⟨0, "d", "c", "x"⟩] = .error 1 ∧
      liveness_step false 0 = some 1 ∧
      liveness_step true 7 = some 1) := by
  have h := write_failure_kills_writer_and_process
    (fun _ => (Except.error 1 : Except Nat Unit)) [⟨0, "d", "c", "x"⟩] 1
    rfl (by decide)
  exact ⟨⟨rfl, by decide⟩, h.1, h.2.1 0, h.2.2 true 7 (by decide)⟩

end Wbmqtt2Influx
